import Mathlib

/-!
Verification of the coursera ETL pipeline (src/main.py) against its
natural-language specification.

The transform stage (`main`, lines 94-125) is embedded as `normalizeEntity`,
`normalizeCollection` and `normalize` over a JSON value type `JVal`, with
Python dictionary-access semantics made explicit: `entity[k]` on a missing
key raises KeyError (the spec's SchemaViolation), `.get(k)` defaults to
None, `.get(k, {})` defaults to an empty dict, and calling `.get` on a
non-dict value (such as None) raises AttributeError.

The load stage (lines 135-156) is embedded as a state-passing pipeline over
`PipeState` (the two fixed-name blobs, the dataset, and the table), with an
`Env` of injected outcomes for the external BigQuery calls.

The CSV artifact (lines 128-133, Python's csv.DictWriter with the default
excel dialect) is embedded character-exactly: comma delimiter, CRLF record
terminator, minimal quoting with doubled inner quotes, None rendered as the
empty string.
-/

namespace Coursera

/-- JSON values, the payloads the pipeline manipulates. -/
inductive JVal where
  | null : JVal
  | bool : Bool → JVal
  | int : Int → JVal
  | str : String → JVal
  | arr : List JVal → JVal
  | obj : List (String × JVal) → JVal
deriving Repr, BEq, Inhabited

/-- Error taxonomy of the run (spec section 7), with the Python exception
classes that realize each kind during normalization. -/
inductive RunError where
  | schemaViolation : String → RunError   -- KeyError on a required field
  | attributeError : RunError             -- .get called on a non-dict value
  | typeErr : RunError                    -- indexing / iterating a wrongly-typed value
  | indexError : RunError                 -- data[0] on an empty response
  | loadFailure : List String → RunError  -- create/insert failures in the load stage
deriving Repr, DecidableEq

/-- First-match lookup in a JSON object's field list (Python dict access). -/
def lookupField (fs : List (String × JVal)) (k : String) : Option JVal :=
  match fs with
  | [] => none
  | (k', v) :: rest => if k' = k then some v else lookupField rest k

/-- `d[k]`: KeyError (SchemaViolation) when the key is absent. -/
def requireKey (fs : List (String × JVal)) (k : String) : Except RunError JVal :=
  match lookupField fs k with
  | some v => .ok v
  | none => .error (.schemaViolation k)

/-- `d.get(k)`: absent keys default to None. -/
def dictGet (fs : List (String × JVal)) (k : String) : JVal :=
  (lookupField fs k).getD JVal.null

/-- `d.get(k, default)`. -/
def dictGetD (fs : List (String × JVal)) (k : String) (d : JVal) : JVal :=
  (lookupField fs k).getD d

/-- View a value as a dict; TypeError otherwise (Python `v[k]` on a non-dict). -/
def asObjE : JVal → Except RunError (List (String × JVal))
  | .obj fs => .ok fs
  | _ => .error .typeErr

/-- View a value as a list; TypeError otherwise (Python iteration/join). -/
def asArrE : JVal → Except RunError (List JVal)
  | .arr xs => .ok xs
  | _ => .error .typeErr

/-- View a value as a string; TypeError otherwise (`str.join` type check). -/
def asStrE : JVal → Except RunError String
  | .str s => .ok s
  | _ => .error .typeErr

/-- `v.get(k)` where `v` may not be a dict: AttributeError on non-dicts
(in particular on None). -/
def pyGet (v : JVal) (k : String) : Except RunError JVal :=
  match v with
  | .obj fs => .ok (dictGet fs k)
  | _ => .error .attributeError

/-- `v.get(k, d)` where `v` may not be a dict. -/
def pyGetD (v : JVal) (k : String) (d : JVal) : Except RunError JVal :=
  match v with
  | .obj fs => .ok (dictGetD fs k d)
  | _ => .error .attributeError

/-- Effectful map over a list, aborting at the first error, in input order
(the Python loop building `transformed_data`). -/
def mapExcept (f : α → Except RunError β) : List α → Except RunError (List β)
  | [] => .ok []
  | x :: xs => do
    let y ← f x
    let ys ← mapExcept f xs
    .ok (y :: ys)

/-- One denormalized output record (the row dict of src/main.py lines 104-124). -/
structure FlatRow where
  collection_label : JVal
  collection_id : JVal
  course_name : JVal
  course_id : JVal
  slug : JVal
  url : JVal
  image_url : JVal
  partners : String
  partner_ids : String
  difficulty_level : JVal
  is_part_of_coursera_plus : JVal
  course_count : JVal
  is_cost_free : JVal
  marketing_product_type : JVal
  is_pathway_content : JVal
deriving Repr

/-- The inner loop body of the transform (src/main.py lines 99-125), with the
source's evaluation order: the partners join, the partnerIds join, then the
row-dict fields top to bottom. -/
def normalizeEntity (collection_label collection_id : JVal) (e : JVal) :
    Except RunError FlatRow := do
  let fs ← asObjE e
  let pv ← requireKey fs "partners"
  let plist ← asArrE pv
  let nameVals ← mapExcept (fun p => do
    let pfs ← asObjE p
    requireKey pfs "name") plist
  let names ← mapExcept asStrE nameVals
  let partners := String.intercalate ", " names
  let iv ← requireKey fs "partnerIds"
  let ilist ← asArrE iv
  let ids ← mapExcept asStrE ilist
  let partner_ids := String.intercalate ", " ids
  let course_name ← requireKey fs "name"
  let course_id ← requireKey fs "id"
  let slug ← requireKey fs "slug"
  let url ← requireKey fs "url"
  let image_url ← requireKey fs "imageUrl"
  let difficulty_level := dictGet fs "difficultyLevel"
  let is_part_of_coursera_plus := dictGet fs "isPartOfCourseraPlus"
  let course_count := dictGet fs "courseCount"
  let is_cost_free := dictGet fs "isCostFree"
  let marketing_product_type ← pyGet (dictGetD fs "productCard" (.obj [])) "marketingProductType"
  let pta ← pyGetD (dictGetD fs "productCard" (.obj [])) "productTypeAttributes" (.obj [])
  let is_pathway_content ← pyGet pta "isPathwayContent"
  .ok { collection_label, collection_id, course_name, course_id, slug, url, image_url,
        partners, partner_ids, difficulty_level, is_part_of_coursera_plus, course_count,
        is_cost_free, marketing_product_type, is_pathway_content }

/-- The per-collection part of the transform loop (src/main.py lines 96-99). -/
def normalizeCollection (c : JVal) : Except RunError (List FlatRow) := do
  let fs ← asObjE c
  let collection_label ← requireKey fs "label"
  let collection_id ← requireKey fs "id"
  let ev ← requireKey fs "entities"
  let entities ← asArrE ev
  mapExcept (normalizeEntity collection_label collection_id) entities

/-- The whole transform: one row per (Collection, Entity) pair, in input
order (src/main.py lines 95-125). -/
def normalize (collections : List JVal) : Except RunError (List FlatRow) := do
  let rss ← mapExcept normalizeCollection collections
  .ok rss.flatten

/-- A partner element is a dict with a string `name` (what the join accepts). -/
def partnerOk (p : JVal) : Bool :=
  match p with
  | .obj pfs =>
    match lookupField pfs "name" with
    | some (.str _) => true
    | _ => false
  | _ => false

/-- `partners` is present and is a list of well-formed partner dicts. -/
def validPartners (fs : List (String × JVal)) : Bool :=
  match lookupField fs "partners" with
  | some (.arr ps) => ps.all partnerOk
  | _ => false

def isStrB (v : JVal) : Bool :=
  match v with
  | .str _ => true
  | _ => false

/-- `partnerIds` is present and is a list of strings. -/
def validPartnerIds (fs : List (String × JVal)) : Bool :=
  match lookupField fs "partnerIds" with
  | some (.arr xs) => xs.all isStrB
  | _ => false

/-- The five scalar keys the row dict reads with `entity[k]`. -/
def requiredPresent (fs : List (String × JVal)) : Bool :=
  (lookupField fs "name").isSome && (lookupField fs "id").isSome &&
    (lookupField fs "slug").isSome && (lookupField fs "url").isSome &&
    (lookupField fs "imageUrl").isSome

/-- `productCard`, when present, is a dict, and its `productTypeAttributes`,
when present, is a dict (what the chained `.get(..., {})` traversal accepts). -/
def validProductCard (fs : List (String × JVal)) : Bool :=
  match lookupField fs "productCard" with
  | none => true
  | some (.obj pcs) =>
    match lookupField pcs "productTypeAttributes" with
    | none => true
    | some (.obj _) => true
    | some _ => false
  | some _ => false

/-- An Entity the transform accepts (spec section 3). -/
def validEntity (e : JVal) : Bool :=
  match e with
  | .obj fs => validPartners fs && validPartnerIds fs && requiredPresent fs &&
      validProductCard fs
  | _ => false

/-- A Collection the transform accepts: `label`, `id` and a list `entities`
of valid Entities. -/
def validCollection (c : JVal) : Bool :=
  match c with
  | .obj fs =>
    (lookupField fs "label").isSome && (lookupField fs "id").isSome &&
      (match lookupField fs "entities" with
       | some (.arr es) => es.all validEntity
       | _ => false)
  | _ => false

/-- A valid API document: a list of valid Collections. -/
def validDoc (cs : List JVal) : Bool := cs.all validCollection

/-- Fields of a value known to be a dict (total view, used in statements). -/
def objFieldsOf : JVal → List (String × JVal)
  | .obj fs => fs
  | _ => []

/-- Elements of a value known to be a list (total view, used in statements). -/
def arrOf : JVal → List JVal
  | .arr xs => xs
  | _ => []

/-- Content of a value known to be a string (total view, used in statements). -/
def strOf : JVal → String
  | .str s => s
  | _ => ""

/-- Total `v[k]`-with-None-default, for statements about valid inputs. -/
def getF (v : JVal) (k : String) : JVal := dictGet (objFieldsOf v) k

/-- `entity.partners[*].name`, in source order. -/
def entityPartnerNames (e : JVal) : List String :=
  (arrOf (getF e "partners")).map (fun p => strOf (getF p "name"))

/-- `entity.partnerIds`, in source order. -/
def entityPartnerIdList (e : JVal) : List String :=
  (arrOf (getF e "partnerIds")).map strOf

/-- The FlatRow a valid Entity flattens to: required scalars copied, the two
joins, optional scalars defaulted to null, and the two productCard reads
through their chained dict defaults. -/
def entityRow (collection_label collection_id e : JVal) : FlatRow :=
  let fs := objFieldsOf e
  let pc := objFieldsOf (dictGetD fs "productCard" (.obj []))
  let pta := objFieldsOf (dictGetD pc "productTypeAttributes" (.obj []))
  { collection_label, collection_id,
    course_name := dictGet fs "name", course_id := dictGet fs "id",
    slug := dictGet fs "slug", url := dictGet fs "url",
    image_url := dictGet fs "imageUrl",
    partners := String.intercalate ", " (entityPartnerNames e),
    partner_ids := String.intercalate ", " (entityPartnerIdList e),
    difficulty_level := dictGet fs "difficultyLevel",
    is_part_of_coursera_plus := dictGet fs "isPartOfCourseraPlus",
    course_count := dictGet fs "courseCount",
    is_cost_free := dictGet fs "isCostFree",
    marketing_product_type := dictGet pc "marketingProductType",
    is_pathway_content := dictGet pta "isPathwayContent" }

/-- The rows a valid Collection contributes, in entity order. -/
def collectionRows (c : JVal) : List FlatRow :=
  (arrOf (getF c "entities")).map (entityRow (getF c "label") (getF c "id"))

/-- A fully populated sample Entity (spec section 8, scenario 1). -/
def sampleEntityFull : JVal :=
  .obj [("id", .str "course-1"), ("slug", .str "intro-ds"), ("name", .str "Intro to DS"),
        ("url", .str "/learn/intro-ds"), ("partnerIds", .arr [.str "p1", .str "p2"]),
        ("imageUrl", .str "https://img/1.png"),
        ("partners", .arr [.obj [("name", .str "Uni A")], .obj [("name", .str "Uni B")]]),
        ("difficultyLevel", .str "Beginner"), ("isPartOfCourseraPlus", .bool true),
        ("courseCount", .int 4), ("isCostFree", .bool false),
        ("productCard", .obj [("marketingProductType", .str "COURSE"),
                              ("productTypeAttributes", .obj [("isPathwayContent", .bool true)])])]

/-- A sample Entity with every optional field absent. -/
def sampleEntityMin : JVal :=
  .obj [("id", .str "course-2"), ("slug", .str "alg"), ("name", .str "Algorithms"),
        ("url", .str "/learn/alg"), ("partnerIds", .arr []),
        ("imageUrl", .str "https://img/2.png"), ("partners", .arr [])]

/-- A sample Collection holding both sample Entities. -/
def sampleCollection : JVal :=
  .obj [("label", .str "Data Science"), ("id", .str "c1"),
        ("entities", .arr [sampleEntityFull, sampleEntityMin])]

@[simp] theorem exbind_ok (a : α) (f : α → Except RunError β) :
    (Except.ok a >>= f) = f a := rfl

@[simp] theorem exbind_error (e : RunError) (f : α → Except RunError β) :
    ((Except.error e : Except RunError α) >>= f) = Except.error e := rfl

@[simp] theorem mapExcept_nil (f : α → Except RunError β) : mapExcept f [] = .ok [] := rfl

theorem mapExcept_cons (f : α → Except RunError β) (x : α) (xs : List α) :
    mapExcept f (x :: xs) =
      (f x >>= fun y => mapExcept f xs >>= fun ys => .ok (y :: ys)) := rfl

theorem validPartners_elim {fs : List (String × JVal)} (h : validPartners fs = true) :
    ∃ ps, lookupField fs "partners" = some (.arr ps) ∧ ps.all partnerOk = true := by
  rcases hl : lookupField fs "partners" with _ | v
  · simp only [validPartners, hl] at h
    exact absurd h (by decide)
  · cases v <;> simp only [validPartners, hl] at h <;>
      first
        | exact ⟨_, rfl, h⟩
        | exact absurd h (by decide)

theorem validPartnerIds_elim {fs : List (String × JVal)} (h : validPartnerIds fs = true) :
    ∃ xs, lookupField fs "partnerIds" = some (.arr xs) ∧ xs.all isStrB = true := by
  rcases hl : lookupField fs "partnerIds" with _ | v
  · simp only [validPartnerIds, hl] at h
    exact absurd h (by decide)
  · cases v <;> simp only [validPartnerIds, hl] at h <;>
      first
        | exact ⟨_, rfl, h⟩
        | exact absurd h (by decide)

theorem partnerOk_elim {p : JVal} (h : partnerOk p = true) :
    ∃ pfs s, p = .obj pfs ∧ lookupField pfs "name" = some (.str s) := by
  cases p <;> simp only [partnerOk] at h
  case obj pfs =>
    rcases hl : lookupField pfs "name" with _ | v
    · simp only [hl] at h
      exact absurd h (by decide)
    · cases v <;> simp only [hl] at h <;>
        first
          | exact ⟨pfs, _, rfl, hl⟩
          | exact absurd h (by decide)
  all_goals exact absurd h (by decide)

theorem isStrB_elim {v : JVal} (h : isStrB v = true) : ∃ s, v = .str s := by
  cases v <;> simp only [isStrB] at h
  case str s => exact ⟨s, rfl⟩
  all_goals exact absurd h (by decide)

theorem validEntity_elim {e : JVal} (h : validEntity e = true) :
    ∃ fs, e = .obj fs ∧ validPartners fs = true ∧ validPartnerIds fs = true ∧
      requiredPresent fs = true ∧ validProductCard fs = true := by
  cases e <;> simp only [validEntity] at h
  case obj fs =>
    rw [Bool.and_eq_true, Bool.and_eq_true, Bool.and_eq_true] at h
    exact ⟨fs, rfl, h.1.1.1, h.1.1.2, h.1.2, h.2⟩
  all_goals exact absurd h (by decide)

theorem validProductCard_elim {fs : List (String × JVal)} (h : validProductCard fs = true) :
    lookupField fs "productCard" = none ∨
      ∃ pcs, lookupField fs "productCard" = some (.obj pcs) ∧
        (lookupField pcs "productTypeAttributes" = none ∨
          ∃ ptas, lookupField pcs "productTypeAttributes" = some (.obj ptas)) := by
  rcases hl : lookupField fs "productCard" with _ | v
  · exact Or.inl rfl
  · cases v <;> simp only [validProductCard, hl] at h
    case obj pcs =>
      refine Or.inr ⟨pcs, rfl, ?_⟩
      rcases hl2 : lookupField pcs "productTypeAttributes" with _ | w
      · exact Or.inl rfl
      · cases w <;> simp only [hl2] at h
        case obj ptas => exact Or.inr ⟨ptas, rfl⟩
        all_goals exact absurd h (by decide)
    all_goals exact absurd h (by decide)

/-- The partner-name comprehension succeeds on well-formed partner lists and
collects `p["name"]` in order. -/
theorem mapExcept_partner_names {ps : List JVal} (h : ps.all partnerOk = true) :
    mapExcept (fun p => do
      let pfs ← asObjE p
      requireKey pfs "name") ps = .ok (ps.map (fun p => getF p "name")) := by
  induction ps with
  | nil => rfl
  | cons p ps ih =>
    rw [List.all_cons, Bool.and_eq_true] at h
    obtain ⟨pfs, s, rfl, hl⟩ := partnerOk_elim h.1
    rw [mapExcept_cons, ih h.2]
    simp [asObjE, requireKey, hl, getF, objFieldsOf, dictGet]

/-- The string-join type check succeeds on lists of strings and returns their
contents in order. -/
theorem mapExcept_strs {xs : List JVal} (h : xs.all isStrB = true) :
    mapExcept asStrE xs = .ok (xs.map strOf) := by
  induction xs with
  | nil => rfl
  | cons x xs ih =>
    rw [List.all_cons, Bool.and_eq_true] at h
    obtain ⟨s, rfl⟩ := isStrB_elim h.1
    rw [mapExcept_cons, ih h.2]
    simp [asStrE, strOf]

theorem all_partnerOk_names {ps : List JVal} (h : ps.all partnerOk = true) :
    (ps.map (fun p => getF p "name")).all isStrB = true := by
  induction ps with
  | nil => rfl
  | cons p ps ih =>
    rw [List.all_cons, Bool.and_eq_true] at h
    obtain ⟨pfs, s, rfl, hl⟩ := partnerOk_elim h.1
    rw [List.map_cons, List.all_cons, Bool.and_eq_true]
    exact ⟨by simp [getF, objFieldsOf, dictGet, hl, isStrB], ih h.2⟩

theorem requiredPresent_elim {fs : List (String × JVal)} (h : requiredPresent fs = true) :
    (∃ v, lookupField fs "name" = some v) ∧ (∃ v, lookupField fs "id" = some v) ∧
      (∃ v, lookupField fs "slug" = some v) ∧ (∃ v, lookupField fs "url" = some v) ∧
      (∃ v, lookupField fs "imageUrl" = some v) := by
  simp only [requiredPresent, Bool.and_eq_true, Option.isSome_iff_exists] at h
  exact ⟨h.1.1.1.1, h.1.1.1.2, h.1.1.2, h.1.2, h.2⟩

/-- On a valid Entity the transform succeeds and yields `entityRow`:
required scalars copied, joins rendered, optionals defaulted to null. -/
theorem normalizeEntity_ok (l i : JVal) {e : JVal} (h : validEntity e = true) :
    normalizeEntity l i e = .ok (entityRow l i e) := by
  obtain ⟨fs, rfl, hp, hpi, hreq, hpc⟩ := validEntity_elim h
  obtain ⟨ps, hps, hpsok⟩ := validPartners_elim hp
  obtain ⟨ids, hids, hidsok⟩ := validPartnerIds_elim hpi
  obtain ⟨⟨nv, hn⟩, ⟨iv, hi⟩, ⟨sv, hs⟩, ⟨uv, hu⟩, ⟨imv, him⟩⟩ := requiredPresent_elim hreq
  rw [normalizeEntity]
  rw [show asObjE (JVal.obj fs) = Except.ok fs from rfl]
  simp only [exbind_ok]
  rw [requireKey, hps]
  simp only [exbind_ok]
  rw [asArrE]
  simp only [exbind_ok]
  rw [mapExcept_partner_names hpsok]
  simp only [exbind_ok]
  rw [mapExcept_strs (all_partnerOk_names hpsok)]
  simp only [exbind_ok]
  rw [requireKey, hids]
  simp only [exbind_ok]
  rw [asArrE]
  simp only [exbind_ok]
  rw [mapExcept_strs hidsok]
  simp only [exbind_ok]
  rw [requireKey, hn, requireKey, hi, requireKey, hs, requireKey, hu, requireKey, him]
  simp only [exbind_ok]
  rcases validProductCard_elim hpc with hpcl | ⟨pcs, hpcl, hpta⟩
  · simp only [entityRow, dictGetD, hpcl, Option.getD, pyGet, pyGetD, dictGet,
      objFieldsOf, lookupField, exbind_ok, entityPartnerNames, entityPartnerIdList,
      getF, hps, hids, List.map_map, Function.comp_def, arrOf, hn, hi, hs, hu, him]
  · rcases hpta with hpta | ⟨ptas, hpta⟩ <;>
      simp only [entityRow, dictGetD, hpcl, hpta, Option.getD, pyGet, pyGetD, dictGet,
        objFieldsOf, lookupField, exbind_ok, entityPartnerNames, entityPartnerIdList,
        getF, hps, hids, List.map_map, Function.comp_def, arrOf, hn, hi, hs, hu, him]

theorem validCollection_elim {c : JVal} (h : validCollection c = true) :
    ∃ fs lv iv es, c = .obj fs ∧ lookupField fs "label" = some lv ∧
      lookupField fs "id" = some iv ∧ lookupField fs "entities" = some (.arr es) ∧
      es.all validEntity = true := by
  cases c <;> simp only [validCollection] at h
  case obj fs =>
    rw [Bool.and_eq_true, Bool.and_eq_true] at h
    obtain ⟨⟨hlab, hid⟩, hent⟩ := h
    obtain ⟨lv, hlv⟩ := Option.isSome_iff_exists.mp hlab
    obtain ⟨iv, hiv⟩ := Option.isSome_iff_exists.mp hid
    rcases hl : lookupField fs "entities" with _ | v
    · simp only [hl] at hent
      exact absurd hent (by decide)
    · cases v <;> simp only [hl] at hent <;>
        first
          | exact ⟨fs, lv, iv, _, rfl, hlv, hiv, hl, hent⟩
          | exact absurd hent (by decide)
  all_goals exact absurd h (by decide)

theorem mapExcept_normalizeEntity (l i : JVal) {es : List JVal}
    (h : es.all validEntity = true) :
    mapExcept (normalizeEntity l i) es = .ok (es.map (entityRow l i)) := by
  induction es with
  | nil => rfl
  | cons e es ih =>
    rw [List.all_cons, Bool.and_eq_true] at h
    rw [mapExcept_cons, normalizeEntity_ok l i h.1, ih h.2]
    rfl

/-- On a valid Collection the transform succeeds and yields one row per
Entity, in entity order. -/
theorem normalizeCollection_ok {c : JVal} (h : validCollection c = true) :
    normalizeCollection c = .ok (collectionRows c) := by
  obtain ⟨fs, lv, iv, es, rfl, hlv, hiv, hes, hall⟩ := validCollection_elim h
  rw [normalizeCollection, show asObjE (JVal.obj fs) = Except.ok fs from rfl]
  simp only [exbind_ok]
  rw [requireKey, hlv]
  simp only [exbind_ok]
  rw [requireKey, hiv]
  simp only [exbind_ok]
  rw [requireKey, hes]
  simp only [exbind_ok]
  rw [show asArrE (JVal.arr es) = Except.ok es from rfl]
  simp only [exbind_ok]
  rw [mapExcept_normalizeEntity lv iv hall]
  simp only [collectionRows, getF, objFieldsOf, dictGet, hlv, hiv, hes, Option.getD, arrOf]

theorem mapExcept_normalizeCollection {cs : List JVal} (h : cs.all validCollection = true) :
    mapExcept normalizeCollection cs = .ok (cs.map collectionRows) := by
  induction cs with
  | nil => rfl
  | cons c cs ih =>
    rw [List.all_cons, Bool.and_eq_true] at h
    rw [mapExcept_cons, normalizeCollection_ok h.1, ih h.2]
    rfl

/-- C1: on every valid API document, `normalize` succeeds and produces
exactly the concatenation, in input order, of one `entityRow` per
(Collection, Entity) pair — hence `sum(len(collection.entities))` rows in
total, with no sorting and no de-duplication. -/
theorem normalize_rows_count_order (cs : List JVal) (h : validDoc cs = true) :
    normalize cs = .ok (cs.map collectionRows).flatten ∧
      ((cs.map collectionRows).flatten).length =
        (cs.map (fun c => (arrOf (getF c "entities")).length)).sum := by
  refine ⟨?_, ?_⟩
  · rw [normalize, mapExcept_normalizeCollection h]
    rfl
  · induction cs with
    | nil => rfl
    | cons c cs ih =>
      simp only [validDoc, List.all_cons, Bool.and_eq_true] at h
      simp only [List.map_cons, List.flatten_cons, List.length_append, List.sum_cons,
        ih h.2]
      congr 1
      simp [collectionRows]

/-- Witness for C1: the sample document with one Collection of two Entities
yields exactly its two rows. -/
theorem normalize_rows_count_order_witness :
    validDoc [sampleCollection] = true ∧
      normalize [sampleCollection] = .ok ([sampleCollection].map collectionRows).flatten ∧
      (([sampleCollection].map collectionRows).flatten).length =
        ([sampleCollection].map (fun c => (arrOf (getF c "entities")).length)).sum :=
  ⟨by rfl, normalize_rows_count_order [sampleCollection] (by rfl)⟩

/-- The six Entity keys whose absence the spec says aborts normalization. -/
def requiredEntityKeys : List String := ["id", "name", "slug", "url", "imageUrl", "partnerIds"]

/-- C2: an Entity (with well-formed partner data) that is missing one of the
six required keys makes normalization abort with a SchemaViolation naming a
missing required key — no row with a defaulted value is produced. -/
theorem missing_required_key_fails (l i : JVal) (fs : List (String × JVal))
    (hp : validPartners fs = true)
    (hpi : lookupField fs "partnerIds" = none ∨ validPartnerIds fs = true)
    (hmiss : ∃ k ∈ requiredEntityKeys, lookupField fs k = none) :
    ∃ k ∈ requiredEntityKeys,
      normalizeEntity l i (.obj fs) = .error (.schemaViolation k) := by
  obtain ⟨ps, hps, hpsok⟩ := validPartners_elim hp
  rw [normalizeEntity, show asObjE (JVal.obj fs) = Except.ok fs from rfl]
  simp only [exbind_ok]
  rw [requireKey, hps]
  simp only [exbind_ok]
  rw [show asArrE (JVal.arr ps) = Except.ok ps from rfl]
  simp only [exbind_ok]
  rw [mapExcept_partner_names hpsok]
  simp only [exbind_ok]
  rw [mapExcept_strs (all_partnerOk_names hpsok)]
  simp only [exbind_ok]
  rcases hpid : lookupField fs "partnerIds" with _ | v
  · refine ⟨"partnerIds", by simp [requiredEntityKeys], ?_⟩
    rw [requireKey, hpid]
    simp only [exbind_error]
  · have hpiv : validPartnerIds fs = true := by
      rcases hpi with h0 | h0
      · rw [h0] at hpid; cases hpid
      · exact h0
    obtain ⟨ids, hids, hidsok⟩ := validPartnerIds_elim hpiv
    rw [hpid] at hids
    injection hids with hv
    subst hv
    rw [requireKey, hpid]
    simp only [exbind_ok]
    rw [show asArrE (JVal.arr ids) = Except.ok ids from rfl]
    simp only [exbind_ok]
    rw [mapExcept_strs hidsok]
    simp only [exbind_ok]
    rcases hn : lookupField fs "name" with _ | nv
    · refine ⟨"name", by simp [requiredEntityKeys], ?_⟩
      rw [requireKey, hn]
      simp only [exbind_error]
    · rw [requireKey, hn]
      simp only [exbind_ok]
      rcases hi : lookupField fs "id" with _ | iv
      · refine ⟨"id", by simp [requiredEntityKeys], ?_⟩
        rw [requireKey, hi]
        simp only [exbind_error]
      · rw [requireKey, hi]
        simp only [exbind_ok]
        rcases hs : lookupField fs "slug" with _ | sv
        · refine ⟨"slug", by simp [requiredEntityKeys], ?_⟩
          rw [requireKey, hs]
          simp only [exbind_error]
        · rw [requireKey, hs]
          simp only [exbind_ok]
          rcases hu : lookupField fs "url" with _ | uv
          · refine ⟨"url", by simp [requiredEntityKeys], ?_⟩
            rw [requireKey, hu]
            simp only [exbind_error]
          · rw [requireKey, hu]
            simp only [exbind_ok]
            rcases him : lookupField fs "imageUrl" with _ | imv
            · refine ⟨"imageUrl", by simp [requiredEntityKeys], ?_⟩
              rw [requireKey, him]
              simp only [exbind_error]
            · exfalso
              obtain ⟨k, hk, hnone⟩ := hmiss
              simp only [requiredEntityKeys, List.mem_cons, List.not_mem_nil,
                or_false] at hk
              rcases hk with rfl | rfl | rfl | rfl | rfl | rfl
              · rw [hnone] at hi; cases hi
              · rw [hnone] at hn; cases hn
              · rw [hnone] at hs; cases hs
              · rw [hnone] at hu; cases hu
              · rw [hnone] at him; cases him
              · rw [hnone] at hpid; cases hpid

/-- A sample Entity missing the required key `name`. -/
def sampleFieldsNoName : List (String × JVal) :=
  [("id", .str "course-3"), ("slug", .str "ml"), ("url", .str "/learn/ml"),
   ("imageUrl", .str "https://img/3.png"), ("partnerIds", .arr []), ("partners", .arr [])]

/-- Witness for C2: the sample Entity missing `name` aborts with a
SchemaViolation on a required key. -/
theorem missing_required_key_fails_witness :
    validPartners sampleFieldsNoName = true ∧
      (∃ k ∈ requiredEntityKeys, lookupField sampleFieldsNoName k = none) ∧
      ∃ k ∈ requiredEntityKeys,
        normalizeEntity .null .null (.obj sampleFieldsNoName) =
          .error (.schemaViolation k) :=
  ⟨by rfl, ⟨"name", by simp [requiredEntityKeys], by rfl⟩,
    missing_required_key_fails .null .null sampleFieldsNoName (by rfl)
      (Or.inr (by rfl)) ⟨"name", by simp [requiredEntityKeys], by rfl⟩⟩

/-- C3: on a valid Entity, normalization succeeds, and each of
`difficultyLevel`, `isPartOfCourseraPlus`, `courseCount`, `isCostFree`, a
missing whole `productCard`, or a missing `productCard` sub-field at any
nesting level, leaves the corresponding FlatRow field null. -/
theorem optional_absent_gives_null (l i e : JVal) (h : validEntity e = true) :
    ∃ r, normalizeEntity l i e = .ok r ∧
      (lookupField (objFieldsOf e) "difficultyLevel" = none → r.difficulty_level = .null) ∧
      (lookupField (objFieldsOf e) "isPartOfCourseraPlus" = none →
        r.is_part_of_coursera_plus = .null) ∧
      (lookupField (objFieldsOf e) "courseCount" = none → r.course_count = .null) ∧
      (lookupField (objFieldsOf e) "isCostFree" = none → r.is_cost_free = .null) ∧
      (lookupField (objFieldsOf e) "productCard" = none →
        r.marketing_product_type = .null ∧ r.is_pathway_content = .null) ∧
      (∀ pcs, lookupField (objFieldsOf e) "productCard" = some (.obj pcs) →
        (lookupField pcs "marketingProductType" = none → r.marketing_product_type = .null) ∧
        (lookupField pcs "productTypeAttributes" = none → r.is_pathway_content = .null) ∧
        (∀ ptas, lookupField pcs "productTypeAttributes" = some (.obj ptas) →
          lookupField ptas "isPathwayContent" = none → r.is_pathway_content = .null)) := by
  obtain ⟨fs, rfl, -, -, -, -⟩ := validEntity_elim h
  refine ⟨entityRow l i (.obj fs), normalizeEntity_ok l i h, ?_, ?_, ?_, ?_, ?_, ?_⟩
  · intro h0
    simp only [objFieldsOf] at h0
    simp [entityRow, objFieldsOf, dictGet, h0]
  · intro h0
    simp only [objFieldsOf] at h0
    simp [entityRow, objFieldsOf, dictGet, h0]
  · intro h0
    simp only [objFieldsOf] at h0
    simp [entityRow, objFieldsOf, dictGet, h0]
  · intro h0
    simp only [objFieldsOf] at h0
    simp [entityRow, objFieldsOf, dictGet, h0]
  · intro h0
    simp only [objFieldsOf] at h0
    constructor <;>
      simp [entityRow, objFieldsOf, dictGet, dictGetD, h0, lookupField]
  · intro pcs hpcs
    simp only [objFieldsOf] at hpcs
    refine ⟨?_, ?_, ?_⟩
    · intro h0
      simp [entityRow, objFieldsOf, dictGet, dictGetD, hpcs, h0]
    · intro h0
      simp [entityRow, objFieldsOf, dictGet, dictGetD, hpcs, h0, lookupField]
    · intro ptas hptas h0
      simp [entityRow, objFieldsOf, dictGet, dictGetD, hpcs, hptas, h0]

/-- Witness for C3: the all-optionals-absent sample Entity normalizes with
null `difficulty_level`, `marketing_product_type` and `is_pathway_content`. -/
theorem optional_absent_gives_null_witness :
    validEntity sampleEntityMin = true ∧
      ∃ r, normalizeEntity .null .null sampleEntityMin = .ok r ∧
        r.difficulty_level = .null ∧ r.marketing_product_type = .null ∧
        r.is_pathway_content = .null := by
  refine ⟨by rfl, ?_⟩
  obtain ⟨r, hr, h1, -, -, -, h5, -⟩ :=
    optional_absent_gives_null .null .null sampleEntityMin (by rfl)
  exact ⟨r, hr, h1 (by rfl), (h5 (by rfl)).1, (h5 (by rfl)).2⟩

/-- C4: on a valid Entity the FlatRow fields `partners` and `partner_ids`
are the comma-space joins of `partners[*].name` and `partnerIds`, in source
order with no de-duplication, and an empty source sequence yields the empty
string. -/
theorem partners_join_fields (l i e : JVal) (h : validEntity e = true) :
    ∃ r, normalizeEntity l i e = .ok r ∧
      r.partners = String.intercalate ", " (entityPartnerNames e) ∧
      r.partner_ids = String.intercalate ", " (entityPartnerIdList e) ∧
      (entityPartnerNames e = [] → r.partners = "") ∧
      (entityPartnerIdList e = [] → r.partner_ids = "") := by
  refine ⟨entityRow l i e, normalizeEntity_ok l i h, rfl, rfl, ?_, ?_⟩
  · intro h0
    show String.intercalate ", " (entityPartnerNames e) = ""
    rw [h0]
    rfl
  · intro h0
    show String.intercalate ", " (entityPartnerIdList e) = ""
    rw [h0]
    rfl

/-- Witness for C4: the two-partner sample joins to `"Uni A, Uni B"` /
`"p1, p2"`, and the empty sample yields empty strings. -/
theorem partners_join_fields_witness :
    validEntity sampleEntityMin = true ∧
      ∃ r, normalizeEntity .null .null sampleEntityMin = .ok r ∧
        r.partners = "" ∧ r.partner_ids = "" := by
  refine ⟨by rfl, ?_⟩
  obtain ⟨r, hr, -, -, h4, h5⟩ :=
    partners_join_fields .null .null sampleEntityMin (by rfl)
  exact ⟨r, hr, h4 (by rfl), h5 (by rfl)⟩

/-- C9: the `partners` key is effectively required — its absence aborts
normalization (with the KeyError from `entity["partners"]`), even though it
is not in the spec's list of SchemaViolation keys. -/
theorem partners_key_required (l i : JVal) (fs : List (String × JVal))
    (h : lookupField fs "partners" = none) :
    normalizeEntity l i (.obj fs) = .error (.schemaViolation "partners") := by
  rw [normalizeEntity, show asObjE (JVal.obj fs) = Except.ok fs from rfl]
  simp only [exbind_ok]
  rw [requireKey, h]
  simp only [exbind_error]

/-- Witness for C9 at the empty Entity. -/
theorem partners_key_required_witness :
    lookupField ([] : List (String × JVal)) "partners" = none ∧
      normalizeEntity .null .null (.obj []) = .error (.schemaViolation "partners") :=
  ⟨rfl, partners_key_required .null .null [] rfl⟩

/-- C10: an Entity whose `productCard` key is present but bound to null
(rather than absent) makes normalization raise AttributeError — the chained
`.get(..., {})` traversal is total only for absent keys, not explicit nulls. -/
theorem product_card_null_raises (l i : JVal) (fs : List (String × JVal))
    (hp : validPartners fs = true) (hpi : validPartnerIds fs = true)
    (hreq : requiredPresent fs = true)
    (hpc : lookupField fs "productCard" = some .null) :
    normalizeEntity l i (.obj fs) = .error .attributeError := by
  obtain ⟨ps, hps, hpsok⟩ := validPartners_elim hp
  obtain ⟨ids, hids, hidsok⟩ := validPartnerIds_elim hpi
  obtain ⟨⟨nv, hn⟩, ⟨iv, hi⟩, ⟨sv, hs⟩, ⟨uv, hu⟩, ⟨imv, him⟩⟩ := requiredPresent_elim hreq
  rw [normalizeEntity, show asObjE (JVal.obj fs) = Except.ok fs from rfl]
  simp only [exbind_ok]
  rw [requireKey, hps]
  simp only [exbind_ok]
  rw [show asArrE (JVal.arr ps) = Except.ok ps from rfl]
  simp only [exbind_ok]
  rw [mapExcept_partner_names hpsok]
  simp only [exbind_ok]
  rw [mapExcept_strs (all_partnerOk_names hpsok)]
  simp only [exbind_ok]
  rw [requireKey, hids]
  simp only [exbind_ok]
  rw [show asArrE (JVal.arr ids) = Except.ok ids from rfl]
  simp only [exbind_ok]
  rw [mapExcept_strs hidsok]
  simp only [exbind_ok]
  rw [requireKey, hn, requireKey, hi, requireKey, hs, requireKey, hu, requireKey, him]
  simp only [exbind_ok]
  rw [dictGetD, hpc]
  simp only [Option.getD, pyGet, exbind_error]

/-- A sample Entity whose `productCard` is an explicit null. -/
def sampleFieldsPCNull : List (String × JVal) :=
  [("id", .str "course-4"), ("slug", .str "stats"), ("name", .str "Statistics"),
   ("url", .str "/learn/stats"), ("imageUrl", .str "https://img/4.png"),
   ("partnerIds", .arr []), ("partners", .arr []), ("productCard", .null)]

/-- Witness for C10 at the explicit-null-productCard sample. -/
theorem product_card_null_raises_witness :
    lookupField sampleFieldsPCNull "productCard" = some .null ∧
      normalizeEntity .null .null (.obj sampleFieldsPCNull) = .error .attributeError :=
  ⟨by rfl, product_card_null_raises .null .null sampleFieldsPCNull (by rfl) (by rfl)
    (by rfl) (by rfl)⟩

/-- Characters that force quoting under csv.QUOTE_MINIMAL with the excel
dialect: the delimiter, the quote char, and the line-terminator chars. -/
def specialChar (c : Char) : Bool := c = ',' || c = '"' || c = '\r' || c = '\n'

/-- Double each quote character (csv quote escaping). -/
def escapeChars : List Char → List Char
  | [] => []
  | c :: cs => if c = '"' then '"' :: '"' :: escapeChars cs else c :: escapeChars cs

/-- One CSV cell: quoted with doubled inner quotes when it contains a
special character, written verbatim otherwise. -/
def renderField (s : String) : List Char :=
  if s.data.any specialChar then '"' :: (escapeChars s.data ++ ['"']) else s.data

/-- Join chunks with a separator (no trailing separator). -/
def joinSep (sep : List Char) : List (List Char) → List Char
  | [] => []
  | [x] => x
  | x :: y :: t => x ++ sep ++ joinSep sep (y :: t)

/-- The excel-dialect record terminator. -/
def crlf : List Char := ['\r', '\n']

/-- One CSV record: comma-separated cells. -/
def renderRecord (cells : List String) : List Char := joinSep [','] (cells.map renderField)

/-- Minimal JSON escaping for the raw-response blob. -/
def escapeJson (s : String) : String :=
  String.join (s.data.map (fun c =>
    if c = '"' then "\\\"" else if c = '\\' then "\\\\" else String.mk [c]))

mutual

/-- json.dump of the raw response (default separators). -/
def renderJson : JVal → String
  | .null => "null"
  | .bool true => "true"
  | .bool false => "false"
  | .int n => toString n
  | .str s => "\"" ++ escapeJson s ++ "\""
  | .arr xs => "[" ++ String.intercalate ", " (renderJsonList xs) ++ "]"
  | .obj fs => "\x7b" ++ String.intercalate ", " (renderJsonObj fs) ++ "\x7d"

def renderJsonList : List JVal → List String
  | [] => []
  | x :: xs => renderJson x :: renderJsonList xs

def renderJsonObj : List (String × JVal) → List String
  | [] => []
  | (k, v) :: fs => ("\"" ++ escapeJson k ++ "\": " ++ renderJson v) :: renderJsonObj fs

end

/-- The string csv.DictWriter puts in a cell: None becomes the empty string,
booleans render as True/False, integers in decimal, strings verbatim.
Composite values (never produced for these columns) render as JSON text. -/
def csvCell : JVal → String
  | .null => ""
  | .bool true => "True"
  | .bool false => "False"
  | .int n => toString n
  | .str s => s
  | v => renderJson v

/-- The fixed column order (src/main.py SCHEMA / CSV_HEADERS). -/
def csvHeaders : List String :=
  ["collection_label", "collection_id", "course_name", "course_id", "slug", "url",
   "image_url", "partners", "partner_ids", "difficulty_level",
   "is_part_of_coursera_plus", "course_count", "is_cost_free",
   "marketing_product_type", "is_pathway_content"]

/-- A FlatRow's cells in the fixed column order. -/
def rowStrings (r : FlatRow) : List String :=
  [csvCell r.collection_label, csvCell r.collection_id, csvCell r.course_name,
   csvCell r.course_id, csvCell r.slug, csvCell r.url, csvCell r.image_url,
   r.partners, r.partner_ids, csvCell r.difficulty_level,
   csvCell r.is_part_of_coursera_plus, csvCell r.course_count,
   csvCell r.is_cost_free, csvCell r.marketing_product_type,
   csvCell r.is_pathway_content]

/-- The coursera_courses.csv blob: header record then one record per row,
each terminated by CRLF (src/main.py lines 128-133). -/
def renderCsv (rows : List FlatRow) : String :=
  String.mk (((csvHeaders :: rows.map rowStrings).map
    (fun cells => renderRecord cells ++ crlf)).flatten)

/-- Outcomes of the external BigQuery calls a run can encounter. -/
structure Env where
  createDatasetError : Option String
  createTableError : Option String
  insertErrors : List String

/-- The external state a run touches: the two fixed-name blobs, the dataset,
and the destination table (schema columns and row contents). -/
structure PipeState where
  rawBlob : Option String
  csvBlob : Option String
  datasetExists : Bool
  table : Option (List String × List FlatRow)
deriving Repr

/-- `data[0]["data"]["DiscoveryCollections"]["queryCollections"]`
(src/main.py line 94). -/
def extractCollections (doc : JVal) : Except RunError (List JVal) := do
  let xs ← asArrE doc
  let first ← match xs with
    | [] => Except.error RunError.indexError
    | x :: _ => Except.ok x
  let o1 ← asObjE first
  let v1 ← requireKey o1 "data"
  let o2 ← asObjE v1
  let v2 ← requireKey o2 "DiscoveryCollections"
  let o3 ← asObjE v2
  let v3 ← requireKey o3 "queryCollections"
  asArrE v3

/-- The transform stage applied to the fetched document. -/
def pipelineRows (doc : JVal) : Except RunError (List FlatRow) := do
  let cols ← extractCollections doc
  normalize cols

/-- Dataset-ensure (src/main.py lines 140-143): get_dataset succeeds when the
dataset exists; otherwise create_dataset runs and its failure propagates. -/
def ensureDataset (env : Env) (s : PipeState) : Except RunError PipeState :=
  if s.datasetExists then .ok s
  else
    match env.createDatasetError with
    | some m => .error (.loadFailure [m])
    | none => .ok { s with datasetExists := true }

/-- Table delete (src/main.py lines 147-150): the bare except swallows every
delete failure, so the step always succeeds and leaves no table. -/
def deleteTableStep (s : PipeState) : PipeState := { s with table := none }

/-- Table create (src/main.py lines 151-152) with the fixed schema. -/
def createTableStep (env : Env) (s : PipeState) : Except RunError PipeState :=
  match env.createTableError with
  | some m => .error (.loadFailure [m])
  | none => .ok { s with table := some (csvHeaders, []) }

/-- The single bulk insert (src/main.py lines 154-156): reported row errors
abort the run with the whole error list; otherwise all rows land. -/
def insertStep (env : Env) (rows : List FlatRow) (s : PipeState) :
    Except RunError PipeState :=
  match env.insertErrors with
  | [] => .ok { s with table := s.table.map (fun t => (t.1, t.2 ++ rows)) }
  | errs => .error (.loadFailure errs)

/-- The Table Replacer protocol (spec section 4.3): ensure dataset, drop any
existing table, create fresh, bulk insert. -/
def replaceTable (env : Env) (rows : List FlatRow) (s : PipeState) :
    Except RunError PipeState := do
  let s1 ← ensureDataset env s
  let s2 := deleteTableStep s1
  let s3 ← createTableStep env s2
  insertStep env rows s3

/-- One full run after the fetch (src/main.py lines 87-156): store the raw
blob, transform, store the CSV blob, replace the table. -/
def runPipeline (env : Env) (doc : JVal) (s : PipeState) : Except RunError PipeState := do
  let s0 := { s with rawBlob := some (renderJson doc) }
  let rows ← pipelineRows doc
  let s1 := { s0 with csvBlob := some (renderCsv rows) }
  replaceTable env rows s1

/-- The state a successful run leaves, independent of the starting state. -/
def finalState (doc : JVal) (rows : List FlatRow) : PipeState :=
  { rawBlob := some (renderJson doc), csvBlob := some (renderCsv rows),
    datasetExists := true, table := some (csvHeaders, rows) }

theorem run_ok_elim {env : Env} {doc : JVal} {s s₁ : PipeState}
    (h : runPipeline env doc s = .ok s₁) :
    ∃ rows, pipelineRows doc = .ok rows ∧ env.createTableError = none ∧
      env.insertErrors = [] ∧ s₁ = finalState doc rows := by
  unfold runPipeline at h
  rcases hr : pipelineRows doc with e | rows
  · rw [hr] at h
    simp only [exbind_error] at h
    cases h
  · rw [hr] at h
    simp only [exbind_ok] at h
    refine ⟨rows, rfl, ?_⟩
    unfold replaceTable ensureDataset at h
    cases hds : s.datasetExists <;>
      rcases hcde : env.createDatasetError with _ | m <;>
      rcases hcte : env.createTableError with _ | m2 <;>
      rcases hie : env.insertErrors with _ | ⟨e1, es⟩ <;>
      simp only [hds, hcde, hcte, hie, deleteTableStep, createTableStep, insertStep,
        exbind_ok, exbind_error, Bool.false_eq_true, if_true, if_false, ite_true,
        ite_false, reduceIte] at h <;>
      (try cases h) <;> simp [finalState]

theorem run_ok_intro (env : Env) (doc : JVal) (s : PipeState) (rows : List FlatRow)
    (hrows : pipelineRows doc = .ok rows)
    (hds : s.datasetExists = true ∨ env.createDatasetError = none)
    (hcte : env.createTableError = none) (hie : env.insertErrors = []) :
    runPipeline env doc s = .ok (finalState doc rows) := by
  unfold runPipeline
  rw [hrows]
  simp only [exbind_ok]
  unfold replaceTable ensureDataset
  cases hdsb : s.datasetExists <;>
    rcases hcde : env.createDatasetError with _ | m <;>
    simp only [hdsb, hcde, hcte, hie, deleteTableStep, createTableStep, insertStep,
      exbind_ok, exbind_error, Bool.false_eq_true, if_true, if_false, ite_true,
      ite_false, reduceIte] <;>
    first
      | (rcases hds with hds | hds
         · rw [hdsb] at hds; cases hds
         · rw [hds] at hcde; cases hcde)
      | simp [finalState]

/-- C5: a successful run leaves the fixed schema with exactly that run's
rows and both blobs determined by the response; running again with the same
response reproduces the identical state — replace, not append. -/
theorem pipeline_idempotent (env : Env) (doc : JVal) (s s₁ : PipeState)
    (h : runPipeline env doc s = .ok s₁) :
    runPipeline env doc s₁ = .ok s₁ ∧
      ∃ rows, pipelineRows doc = .ok rows ∧
        s₁.table = some (csvHeaders, rows) ∧
        s₁.rawBlob = some (renderJson doc) ∧
        s₁.csvBlob = some (renderCsv rows) := by
  obtain ⟨rows, hrows, hcte, hie, rfl⟩ := run_ok_elim h
  exact ⟨run_ok_intro env doc _ rows hrows (Or.inl rfl) hcte hie,
    rows, hrows, rfl, rfl, rfl⟩

/-- The single-collection sample response document. -/
def sampleDoc : JVal :=
  .arr [.obj [("data", .obj [("DiscoveryCollections",
    .obj [("queryCollections", .arr [sampleCollection])])])]]

/-- An environment in which every BigQuery call succeeds. -/
def envOk : Env := ⟨none, none, []⟩

/-- A fresh destination: no blobs, no dataset, no table. -/
def stateEmpty : PipeState := ⟨none, none, false, none⟩

/-- The sample document's rows. -/
def sampleRows : List FlatRow := ([sampleCollection].map collectionRows).flatten

/-- Witness for C5: a concrete successful run on the sample document, whose
repetition reproduces the same final state. -/
theorem pipeline_idempotent_witness :
    runPipeline envOk sampleDoc stateEmpty = .ok (finalState sampleDoc sampleRows) ∧
      runPipeline envOk sampleDoc (finalState sampleDoc sampleRows) =
        .ok (finalState sampleDoc sampleRows) :=
  ⟨by rfl,
    (pipeline_idempotent envOk sampleDoc stateEmpty (finalState sampleDoc sampleRows)
      (by rfl)).1⟩

/-- C6: when the bulk insert reports per-row errors, an otherwise-successful
run fails with a LoadFailure carrying exactly the reported error list — no
partial-success path. -/
theorem insert_errors_load_failure (env : Env) (doc : JVal) (s : PipeState)
    (rows : List FlatRow) (hrows : pipelineRows doc = .ok rows)
    (hds : s.datasetExists = true) (hcte : env.createTableError = none)
    (hie : env.insertErrors ≠ []) :
    runPipeline env doc s = .error (.loadFailure env.insertErrors) := by
  unfold runPipeline
  rw [hrows]
  simp only [exbind_ok]
  unfold replaceTable ensureDataset
  rcases hie2 : env.insertErrors with _ | ⟨e1, es⟩
  · exact absurd hie2 hie
  · simp only [hds, hcte, hie2, deleteTableStep, createTableStep, insertStep,
      exbind_ok, exbind_error, if_true, ite_true, reduceIte]

/-- An environment whose bulk insert reports one row-level error. -/
def envInsertFails : Env := ⟨none, none, ["row 0: invalid"]⟩

/-- A destination where the dataset already exists. -/
def stateWithDataset : PipeState := ⟨none, none, true, none⟩

/-- Witness for C6 at the sample document and a one-error insert. -/
theorem insert_errors_load_failure_witness :
    envInsertFails.insertErrors ≠ [] ∧
      runPipeline envInsertFails sampleDoc stateWithDataset =
        .error (.loadFailure envInsertFails.insertErrors) :=
  ⟨by simp [envInsertFails], insert_errors_load_failure envInsertFails sampleDoc
    stateWithDataset sampleRows (by rfl) (by rfl) (by rfl) (by simp [envInsertFails])⟩

/-- C7: the Table Replacer protocol — an existing dataset is success as-is; a
missing dataset is created, with any create failure propagated; the table
delete always succeeds (a missing table is swallowed); and under these
tolerated conditions the run proceeds to create the table and load the rows. -/
theorem table_replacer_protocol (env : Env) (s : PipeState) (rows : List FlatRow) :
    (s.datasetExists = true → ensureDataset env s = .ok s) ∧
    (s.datasetExists = false → env.createDatasetError = none →
      ensureDataset env s = .ok { s with datasetExists := true }) ∧
    (∀ m, s.datasetExists = false → env.createDatasetError = some m →
      ensureDataset env s = .error (.loadFailure [m])) ∧
    deleteTableStep s = { s with table := none } ∧
    (s.datasetExists = true → env.createTableError = none → env.insertErrors = [] →
      replaceTable env rows s = .ok { s with table := some (csvHeaders, rows) }) := by
  refine ⟨?_, ?_, ?_, rfl, ?_⟩
  · intro hds
    simp [ensureDataset, hds]
  · intro hds hcde
    simp [ensureDataset, hds, hcde]
  · intro m hds hcde
    simp [ensureDataset, hds, hcde]
  · intro hds hcte hie
    unfold replaceTable ensureDataset
    simp only [hds, hcte, hie, deleteTableStep, createTableStep, insertStep,
      exbind_ok, exbind_error, if_true, ite_true, reduceIte]
    simp

/-- Witness for C7: at a concrete state with the dataset present, the
protocol replaces the table with the sample rows. -/
theorem table_replacer_protocol_witness :
    ensureDataset envOk stateWithDataset = .ok stateWithDataset ∧
      replaceTable envOk sampleRows stateWithDataset =
        .ok { stateWithDataset with table := some (csvHeaders, sampleRows) } :=
  ⟨(table_replacer_protocol envOk stateWithDataset sampleRows).1 rfl,
    (table_replacer_protocol envOk stateWithDataset sampleRows).2.2.2.2 rfl rfl rfl⟩

/-- Modelled from the spec: parsing the delimited blob back (spec section 8
round-trip). Reads one quoted cell after its opening quote: doubled quotes
are literal quotes, a lone quote closes the cell. -/
def parseQuoted (l : List Char) : List Char × List Char :=
  match l with
  | [] => ([], [])
  | c :: cs =>
    if c = '"' then
      match cs with
      | [] => ([], [])
      | d :: ds =>
        if d = '"' then
          let p := parseQuoted ds
          ('"' :: p.1, p.2)
        else ([], cs)
    else
      let p := parseQuoted cs
      (c :: p.1, p.2)

/-- Modelled from the spec: reads one unquoted cell, stopping at the
delimiter or the record terminator. -/
def parsePlain (l : List Char) : List Char × List Char :=
  match l with
  | [] => ([], [])
  | c :: cs =>
    if c = ',' ∨ c = '\r' then ([], c :: cs)
    else
      let p := parsePlain cs
      (c :: p.1, p.2)

/-- Modelled from the spec: reads one cell, quoted or plain. -/
def parseFieldStep (l : List Char) : List Char × List Char :=
  match l with
  | [] => ([], [])
  | c :: cs => if c = '"' then parseQuoted cs else parsePlain (c :: cs)

theorem parsePlain_len (l : List Char) : (parsePlain l).2.length ≤ l.length := by
  induction l with
  | nil => simp [parsePlain]
  | cons c cs ih =>
    simp only [parsePlain]
    by_cases hc : c = ',' ∨ c = '\r'
    · rw [if_pos hc]
    · rw [if_neg hc]
      exact Nat.le_succ_of_le ih

theorem parseQuoted_len : ∀ l : List Char, (parseQuoted l).2.length ≤ l.length
  | [] => by simp [parseQuoted]
  | [c] => by
    by_cases hc : c = '"' <;> simp [parseQuoted, hc]
  | c :: d :: ds => by
    by_cases hc : c = '"'
    · subst hc
      by_cases hd : d = '"'
      · subst hd
        have h := parseQuoted_len ds
        simp [parseQuoted]
        omega
      · simp [parseQuoted, hd]
    · have h := parseQuoted_len (d :: ds)
      simp only [parseQuoted, if_neg hc]
      simp only [List.length_cons] at h ⊢
      omega

theorem parseFieldStep_len (l : List Char) : (parseFieldStep l).2.length ≤ l.length := by
  cases l with
  | nil => simp [parseFieldStep]
  | cons c cs =>
    simp only [parseFieldStep]
    by_cases hc : c = '"'
    · rw [if_pos hc]
      exact Nat.le_succ_of_le (parseQuoted_len cs)
    · rw [if_neg hc]
      exact parsePlain_len (c :: cs)

/-- Modelled from the spec: reads one record — cells separated by commas,
ended by CRLF or the end of input. -/
def parseRecord (l : List Char) : List String × List Char :=
  let p := parseFieldStep l
  if hc : p.2.head? = some ',' then
    have hne : p.2 ≠ [] := by
      intro h0
      rw [h0] at hc
      cases hc
    have hlt : p.2.tail.length < l.length := by
      have hle := parseFieldStep_len l
      have h2 : p.2.tail.length < p.2.length := by
        cases hp2 : p.2 with
        | nil => exact absurd hp2 hne
        | cons a as => simp
      exact Nat.lt_of_lt_of_le h2 hle
    let q := parseRecord p.2.tail
    (String.mk p.1 :: q.1, q.2)
  else if p.2.head? = some '\r' ∧ p.2.tail.head? = some '\n' then
    ([String.mk p.1], p.2.tail.tail)
  else if p.2.head? = some '\r' then ([String.mk p.1], p.2.tail)
  else ([String.mk p.1], p.2)
termination_by l.length
decreasing_by exact hlt

/-- Modelled from the spec: reads the whole blob as a record list. -/
def parseRecords (l : List Char) : List (List String) :=
  if hne : l = [] then []
  else
    let p := parseRecord l
    if hlt : p.2.length < l.length then p.1 :: parseRecords p.2 else [p.1]
termination_by l.length
decreasing_by exact hlt

/-- Modelled from the spec: parse the serialized blob back into rows of
cell strings. -/
def parseCsv (s : String) : List (List String) := parseRecords s.data

theorem delim_ne_quote {c : Char} (hc : c = ',' ∨ c = '\r') : c ≠ '"' := by
  rcases hc with rfl | rfl <;> decide

theorem parseQuoted_cons_ne {a : Char} (cs : List Char) (ha : ¬a = '"') :
    parseQuoted (a :: cs) = (a :: (parseQuoted cs).1, (parseQuoted cs).2) := by
  conv_lhs => rw [parseQuoted.eq_def]
  dsimp only
  rw [if_neg ha]

/-- Reading back an escaped cell body recovers it exactly, provided the
following context does not begin with a quote. -/
theorem parseQuoted_escape (s : List Char) (rest : List Char)
    (h : rest.head? ≠ some '"') :
    parseQuoted (escapeChars s ++ '"' :: rest) = (s, rest) := by
  induction s with
  | nil =>
    rw [escapeChars, List.nil_append]
    cases rest with
    | nil => rfl
    | cons d ds =>
      have hd : d ≠ '"' := by
        intro h0
        subst h0
        exact h rfl
      simp [parseQuoted, hd]
  | cons a t ih =>
    by_cases ha : a = '"'
    · subst ha
      simp [parseQuoted, escapeChars, ih]
    · simp only [escapeChars, ha, ite_false, if_false, List.cons_append]
      rw [parseQuoted_cons_ne _ ha, ih]

theorem specialChar_false {a : Char} (h : specialChar a = false) :
    ¬a = ',' ∧ ¬a = '"' ∧ ¬a = '\r' ∧ ¬a = '\n' := by
  simp [specialChar] at h
  tauto

/-- Reading back a delimiter-free cell stops exactly at the delimiter. -/
theorem parsePlain_upto (s : List Char) (c : Char) (R : List Char)
    (hs : ∀ a ∈ s, ¬(a = ',' ∨ a = '\r')) (hc : c = ',' ∨ c = '\r') :
    parsePlain (s ++ c :: R) = (s, c :: R) := by
  induction s with
  | nil =>
    rw [List.nil_append]
    simp only [parsePlain]
    rw [if_pos hc]
  | cons a t ih =>
    have ha := hs a (List.mem_cons_self a t)
    rw [List.cons_append]
    simp only [parsePlain]
    rw [if_neg ha, ih (fun x hx => hs x (List.mem_cons_of_mem a hx))]

/-- Reading back one rendered cell recovers its content and leaves the
delimiter in place. -/
theorem parseFieldStep_render (f : String) (c : Char) (R : List Char)
    (hc : c = ',' ∨ c = '\r') :
    parseFieldStep (renderField f ++ c :: R) = (f.data, c :: R) := by
  rw [renderField]
  by_cases hq : f.data.any specialChar
  · rw [if_pos hq]
    have hsplit : ('"' :: (escapeChars f.data ++ ['"'])) ++ c :: R =
        '"' :: (escapeChars f.data ++ '"' :: (c :: R)) := by
      simp
    rw [hsplit]
    show parseQuoted (escapeChars f.data ++ '"' :: (c :: R)) = (f.data, c :: R)
    exact parseQuoted_escape f.data (c :: R) (by simpa using delim_ne_quote hc)
  · rw [if_neg hq]
    have hall : ∀ x ∈ f.data, specialChar x = false := by
      simpa [List.any_eq_false] using hq
    cases hd : f.data with
    | nil =>
      rw [List.nil_append]
      simp only [parseFieldStep]
      rw [if_neg (delim_ne_quote hc)]
      simp only [parsePlain]
      rw [if_pos hc]
    | cons a t =>
      have ha : a ≠ '"' := by
        have := specialChar_false (hall a (by rw [hd]; exact List.mem_cons_self a t))
        exact this.2.1
      rw [List.cons_append]
      simp only [parseFieldStep]
      rw [if_neg ha, ← List.cons_append]
      refine parsePlain_upto (a :: t) c R ?_ hc
      intro x hx
      have hsf := specialChar_false (hall x (by rw [hd]; exact hx))
      intro h0
      rcases h0 with rfl | rfl
      · exact hsf.1 rfl
      · exact hsf.2.2.1 rfl

/-- Reading back one rendered record recovers its cells and consumes the
CRLF terminator. -/
theorem parseRecord_render (f : String) (fs : List String) (rest : List Char) :
    parseRecord (renderRecord (f :: fs) ++ '\r' :: '\n' :: rest) = (f :: fs, rest) := by
  induction fs generalizing f with
  | nil =>
    have hin : renderRecord [f] ++ '\r' :: '\n' :: rest =
        renderField f ++ '\r' :: '\n' :: rest := by
      simp [renderRecord, joinSep]
    rw [hin, parseRecord]
    simp only [parseFieldStep_render f '\r' ('\n' :: rest) (Or.inr rfl)]
    simp
  | cons g gs ih =>
    have hin : renderRecord (f :: g :: gs) ++ '\r' :: '\n' :: rest =
        renderField f ++ ',' :: (renderRecord (g :: gs) ++ '\r' :: '\n' :: rest) := by
      simp [renderRecord, joinSep]
    rw [hin, parseRecord]
    simp only [parseFieldStep_render f ','
      (renderRecord (g :: gs) ++ '\r' :: '\n' :: rest) (Or.inl rfl)]
    simp [ih]

/-- Reading back a rendered sequence of nonempty records recovers it. -/
theorem parseRecords_render (rs : List (List String)) (h : ∀ r ∈ rs, r ≠ []) :
    parseRecords ((rs.map (fun r => renderRecord r ++ crlf)).flatten) = rs := by
  induction rs with
  | nil => simp [parseRecords]
  | cons r rs ih =>
    obtain ⟨f, fs, rfl⟩ : ∃ f fs, r = f :: fs := by
      cases r with
      | nil => exact absurd rfl (h [] (List.mem_cons_self _ _))
      | cons f fs => exact ⟨f, fs, rfl⟩
    rw [List.map_cons, List.flatten_cons]
    have hin : (renderRecord (f :: fs) ++ crlf) ++
          (rs.map (fun r => renderRecord r ++ crlf)).flatten =
        renderRecord (f :: fs) ++ '\r' :: '\n' ::
          (rs.map (fun r => renderRecord r ++ crlf)).flatten := by
      simp [crlf]
    rw [hin]
    have hrec := parseRecord_render f fs
      ((rs.map (fun r => renderRecord r ++ crlf)).flatten)
    have hlen : ((rs.map (fun r => renderRecord r ++ crlf)).flatten).length <
        (renderRecord (f :: fs) ++ '\r' :: '\n' ::
          (rs.map (fun r => renderRecord r ++ crlf)).flatten).length := by
      simp only [List.length_append, List.length_cons]
      omega
    have hne : renderRecord (f :: fs) ++ '\r' :: '\n' ::
        (rs.map (fun r => renderRecord r ++ crlf)).flatten ≠ [] := by
      intro h0
      have := congrArg List.length h0
      simp only [List.length_append, List.length_cons, List.length_nil] at this
      omega
    rw [parseRecords, dif_neg hne]
    simp only [hrec]
    rw [dif_pos hlen]
    rw [ih (fun x hx => h x (List.mem_cons_of_mem _ hx))]

/-- C8: parsing the serialized CSV blob reconstructs the header row followed
by one cell-row per FlatRow, field for field in the fixed column order —
equal to the normalized sequence up to the cells' string representation. -/
theorem csv_round_trip (rows : List FlatRow) :
    parseCsv (renderCsv rows) = csvHeaders :: rows.map rowStrings := by
  show parseRecords (((csvHeaders :: rows.map rowStrings).map
    (fun cells => renderRecord cells ++ crlf)).flatten) = csvHeaders :: rows.map rowStrings
  refine parseRecords_render _ ?_
  intro r hr
  rcases List.mem_cons.mp hr with rfl | hr2
  · simp [csvHeaders]
  · obtain ⟨x, -, rfl⟩ := List.mem_map.mp hr2
    simp [rowStrings]

end Coursera
